import Mathlib

/-!
Shallow embedding of the `substrate-subxt` offline client
(`src/offline_client.rs`) and its input-loading utilities, together with
theorems settling the specification claims about it.

Bytes are modelled as `Nat` (all produced values are `< 256`), byte buffers
as `List Nat`, and strings as Lean `String`s (the observed inputs are ASCII,
so Rust's byte indexing coincides with character indexing).

Functions of this repository that are only *called* from
`src/offline_client.rs` but whose bodies are not under `src/`
(the extrinsic assembler `extrinsic::create_signed` / `create_unsigned`,
the metadata lookup `Metadata::module_with_calls` / `ModuleWithCalls::call`,
and the `UncheckedExtrinsic` codec) are modelled from the spec, as marked in
their doc comments.  External crates (`hex`, `serde_json`) are modelled
faithfully to their documented behaviour.
-/

namespace OfflineSubxt

/-! ## Error taxonomy (spec section 7) -/

/-- The error kinds observable through `offline_client.rs`: the missing-nonce
error returned by `create_signed`, the two metadata lookup failures, and the
two input-loading decode failures. -/
inductive Error where
  | missingNonce
  | unknownModule (name : String)
  | unknownCall (name : String)
  | malformedJson
  | malformedHex
deriving DecidableEq, Repr

/-! ## Binary codec primitives (external SCALE codec, used as a primitive) -/

/-- Little-endian byte rendering of `v` in exactly `k` bytes. -/
def toLEBytes : Nat → Nat → List Nat
  | 0, _ => []
  | k + 1, v => (v % 256) :: toLEBytes k (v / 256)

/-- A 32-bit little-endian integer encoding (used for spec version and
transaction version in the additional-signed data). -/
def encodeU32LE (v : Nat) : List Nat :=
  toLEBytes 4 v

/-- SCALE compact integer encoding (used for nonce, tip, call arguments and
length prefixes). -/
def encodeCompact (n : Nat) : List Nat :=
  if n < 64 then [n * 4]
  else if n < 16384 then toLEBytes 2 (n * 4 + 1)
  else if n < 1073741824 then toLEBytes 4 (n * 4 + 2)
  else
    let len := Nat.log 256 n + 1
    ((len - 4) * 4 + 3) :: toLEBytes len n

/-! ## Hex rendering and decoding (the `hex` crate) -/

/-- Value of one hex digit character, accepting both cases, as the `hex`
crate does. -/
def hexDigitVal (c : Char) : Option Nat :=
  let n := c.toNat
  if 48 ≤ n ∧ n ≤ 57 then some (n - 48)
  else if 97 ≤ n ∧ n ≤ 102 then some (n - 87)
  else if 65 ≤ n ∧ n ≤ 70 then some (n - 55)
  else none

/-- The lowercase hex digit character for a value `< 16`
(`hex::encode` renders lowercase). -/
def hexDigitChar (v : Nat) : Char :=
  if v < 10 then Char.ofNat (48 + v) else Char.ofNat (87 + v)

/-- Two lowercase hex digit characters for one byte. -/
def hexEncodeByte (b : Nat) : List Char :=
  [hexDigitChar (b / 16 % 16), hexDigitChar (b % 16)]

/-- `hex::encode`: lowercase hex string of a byte buffer. -/
def hexEncode (bs : List Nat) : String :=
  ⟨(bs.map hexEncodeByte).flatten⟩

/-- `hex::decode` on a character list: fails on an odd-length input or on a
character that is not a hex digit. -/
def hexDecodeList : List Char → Option (List Nat)
  | [] => some []
  | [_] => none
  | c1 :: c2 :: rest =>
    match hexDigitVal c1, hexDigitVal c2, hexDecodeList rest with
    | some h, some l, some bs => some ((h * 16 + l) :: bs)
    | _, _, _ => none

/-- A character is a digit or a lowercase hex letter. -/
def isLowerHexChar (c : Char) : Bool :=
  (48 ≤ c.toNat && c.toNat ≤ 57) || (97 ≤ c.toNat && c.toNat ≤ 102)

/-! ## JSON documents and the input loader (`offline_client::util`) -/

/-- A parsed JSON value (what `serde_json::from_str` produces from the file
contents; the file reading itself is I/O and outside the embedding). -/
inductive Json where
  | str (s : String)
  | num (n : Int)
  | bool (b : Bool)
  | null
  | arr (xs : List Json)
  | obj (fields : List (String × Json))

/-- The shape of an RPC JSON response object (`util::RpcRes<T>`): note it has
no `id` field, and serde ignores unknown fields by default. -/
structure RpcRes (α : Type) where
  jsonrpc : String
  result : α
deriving DecidableEq, Repr

/-- Deserializing a `String` from a JSON value. -/
def parseString : Json → Option String
  | .str s => some s
  | _ => none

/-- Serde deserialization of `RpcRes<T>` from a JSON value, given a
deserializer for `T`: the document must be an object with a string field
`jsonrpc` and a field `result` deserializable as `T`; all other fields
(including `id`) are ignored. -/
def parseRpcRes {α : Type} (pT : Json → Option α) : Json → Option (RpcRes α)
  | .obj fields =>
    match fields.lookup "jsonrpc" with
    | some (.str jr) =>
      match fields.lookup "result" with
      | some v => (pT v).map fun t => { jsonrpc := jr, result := t }
      | none => none
    | _ => none
  | _ => none

/-- Outcome of `util::rpc_to_bytes`, which can also panic (Rust slice
indexing `[2..]` out of bounds). -/
inductive BytesOutcome where
  | ok (bs : List Nat)
  | err (e : Error)
  | panic
deriving DecidableEq, Repr

/-- `util::rpc_to_bytes` on the parsed file contents: deserialize
`RpcRes<String>`, take the slice `result[2..]` (which panics when the string
is shorter than two bytes) and hex-decode it. -/
def rpc_to_bytes (doc : Json) : BytesOutcome :=
  match parseRpcRes parseString doc with
  | none => .err .malformedJson
  | some r =>
    match r.result.data with
    | [] => .panic
    | [_] => .panic
    | _ :: _ :: rest =>
      match hexDecodeList rest with
      | some bs => .ok bs
      | none => .err .malformedHex

/-- `util::rpc_to_struct` on the parsed file contents: deserialize
`RpcRes<T>` and return its `result`. -/
def rpc_to_struct {α : Type} (pT : Json → Option α) (doc : Json) :
    Except Error α :=
  match parseRpcRes pT doc with
  | some r => .ok r.result
  | none => .error .malformedJson

/-! ## Schema (decoded `Metadata`) and call encoding -/

/-- One call entry of the decoded schema: its name and call index. -/
structure CallEntry where
  name : String
  index : Nat
deriving DecidableEq, Repr

/-- One module entry of the decoded schema: its name, module index, and
calls. -/
structure ModuleEntry where
  name : String
  index : Nat
  calls : List CallEntry
deriving DecidableEq, Repr

/-- The decoded schema (`Metadata`): module name to module entry, in
declaration order. -/
abbrev Schema := List ModuleEntry

/-- A typed call argument, already shaped by the caller: either raw bytes
(e.g. an account id) or a compact-encoded integer (e.g. a balance). -/
inductive ArgVal where
  | raw (bs : List Nat)
  | compact (n : Nat)
deriving DecidableEq, Repr

/-- The codec encoding of one argument. -/
def encodeArg : ArgVal → List Nat
  | .raw bs => bs
  | .compact n => encodeCompact n

/-- A call value as supplied by the caller: target module name, call name,
and arguments in declared order (the `Call` trait's `MODULE`, `FUNCTION`,
and the `Encode`-derived field encoding). -/
structure CallData where
  module : String
  function : String
  args : List ArgVal
deriving DecidableEq, Repr

/-- Modelled from the spec: `Metadata::module_with_calls` (not under
`src/`), the module-name lookup, failing with the unknown-module error. -/
def module_with_calls (s : Schema) (name : String) : Except Error ModuleEntry :=
  match s.find? (fun m => m.name == name) with
  | some m => .ok m
  | none => .error (.unknownModule name)

/-- Modelled from the spec: `ModuleWithCalls::call` (not under `src/`):
emit the module index byte, then the call index byte, then each argument
serialized in declared order; unknown call names fail with the
unknown-call error. -/
def moduleCall (m : ModuleEntry) (fname : String) (args : List ArgVal) :
    Except Error (List Nat) :=
  match m.calls.find? (fun c => c.name == fname) with
  | some c => .ok (m.index :: c.index :: (args.map encodeArg).flatten)
  | none => .error (.unknownCall fname)

/-! ## Chain identity, properties, signer -/

/-- `sp_version::RuntimeVersion` (the fields the offline pipeline reads,
plus the informational ones stored by the client). -/
structure RuntimeVersion where
  specName : String
  implName : String
  specVersion : Nat
  implVersion : Nat
  transactionVersion : Nat
deriving DecidableEq, Repr

/-- `rpc::SystemProperties`: informational chain properties, never encoded
into transactions. -/
structure SystemProperties where
  ss58Format : Nat
  tokenDecimals : Nat
  tokenSymbol : String
deriving DecidableEq, Repr

/-- The Signing Adapter (the `Signer` trait object): an account id, an
explicitly managed optional nonce, and a deterministic signing function
from payload bytes to signature bytes. -/
structure Signer where
  account_id : List Nat
  nonce : Option Nat
  sign : List Nat → List Nat

/-! ## Extrinsic assembly (modelled from the spec where not under `src/`) -/

/-- The signature section of a signed extrinsic: account id, signature, and
the signed-extra bytes that are re-transmitted on the wire. -/
structure SignaturePart where
  accountId : List Nat
  signature : List Nat
  signedExtra : List Nat
deriving DecidableEq, Repr

/-- `UncheckedExtrinsic`: an optional signature section and the encoded
call; unsigned extrinsics omit the signature section entirely. -/
structure UncheckedExtrinsic where
  sig : Option SignaturePart
  call : List Nat
deriving DecidableEq, Repr

/-- Era encoding for an immortal transaction (the sentinel era value; this
pipeline always constructs immortal extrinsics). -/
def eraImmortalBytes : List Nat := [0]

/-- Modelled from the spec: the encoded signed-extra tuple — nonce,
mortality descriptor (immortal), and tip — each encoded per the codec's
rules. -/
def signedExtraBytes (nonce tip : Nat) : List Nat :=
  encodeCompact nonce ++ eraImmortalBytes ++ encodeCompact tip

/-- Modelled from the spec: the encoded additional-signed tuple — spec
version, transaction version, genesis id (no checkpoint block hash, since
the transaction is immortal). -/
def additionalSignedBytes (rv : RuntimeVersion) (genesis : List Nat) : List Nat :=
  encodeU32LE rv.specVersion ++ encodeU32LE rv.transactionVersion ++ genesis

/-- The `SignedPayload`: encoded call ++ encoded signed-extra ++ encoded
additional-signed, in this fixed order. -/
def signedPayload (call extra additional : List Nat) : List Nat :=
  call ++ extra ++ additional

/-- Observable effects of a `create_signed` run: the call-encoding step and
each invocation of the Signing Adapter with its payload. -/
inductive Event where
  | encodeCall
  | sign (payload : List Nat)
deriving DecidableEq, Repr

/-- Modelled from the spec: `extrinsic::create_signed` (not under `src/`):
build the signed-extra and additional-signed tuples (tip 0, immortal era),
concatenate the `SignedPayload`, invoke the Signing Adapter on it, and
assemble the extrinsic; the event trace records each sign invocation. -/
def extrinsic_create_signed (rv : RuntimeVersion) (genesis : List Nat)
    (nonce : Nat) (call : List Nat) (signer : Signer) :
    UncheckedExtrinsic × List Event :=
  let extra := signedExtraBytes nonce 0
  let additional := additionalSignedBytes rv genesis
  let payload := signedPayload call extra additional
  ({ sig := some { accountId := signer.account_id
                   signature := signer.sign payload
                   signedExtra := extra }
     call := call },
   [.sign payload])

/-- Modelled from the spec: `extrinsic::create_unsigned` (not under `src/`):
wraps the encoded call with no signature section; always succeeds. -/
def extrinsic_create_unsigned (call : List Nat) : UncheckedExtrinsic :=
  { sig := none, call := call }

/-- Modelled from the spec: the `Encode` impl of `UncheckedExtrinsic` (not
under `src/`): version marker (signed or unsigned transaction version 4),
the optional signature section, the encoded call, all behind the
extrinsic's own compact length prefix. -/
def encodeExtrinsic (ext : UncheckedExtrinsic) : List Nat :=
  let inner : List Nat :=
    match ext.sig with
    | none => 4 :: ext.call
    | some s => 132 :: (s.accountId ++ s.signature ++ s.signedExtra ++ ext.call)
  encodeCompact inner.length ++ inner

/-! ## The offline client (`OfflineClient`) -/

/-- `OfflineClient`: the four stored fields (the `_marker` field is a
zero-sized phantom). -/
structure OfflineClient where
  genesis_hash : List Nat
  metadata : Schema
  properties : SystemProperties
  runtime_version : RuntimeVersion
deriving DecidableEq, Repr

/-- `impl Clone for OfflineClient`: rebuilds the client from its four
stored fields. -/
def OfflineClient.clone (c : OfflineClient) : OfflineClient :=
  { genesis_hash := c.genesis_hash
    metadata := c.metadata
    properties := c.properties
    runtime_version := c.runtime_version }

/-- `OfflineClient::encode`: resolve the module, then encode the call
against it. -/
def OfflineClient.encode (c : OfflineClient) (call : CallData) :
    Except Error (List Nat) :=
  match module_with_calls c.metadata call.module with
  | .error e => .error e
  | .ok m => moduleCall m call.function call.args

/-- `OfflineClient::create_unsigned`: encode the call and wrap it without a
signature section. -/
def OfflineClient.create_unsigned (c : OfflineClient) (call : CallData) :
    Except Error UncheckedExtrinsic :=
  match c.encode call with
  | .error e => .error e
  | .ok ec => .ok (extrinsic_create_unsigned ec)

/-- `OfflineClient::create_signed`: check the signer's nonce first (missing
nonce is an early error before any encoding), then encode the call, then
run the assembler; paired with the trace of observable events in program
order. -/
def OfflineClient.create_signed (c : OfflineClient) (call : CallData)
    (signer : Signer) : Except Error UncheckedExtrinsic × List Event :=
  match signer.nonce with
  | none => (.error .missingNonce, [])
  | some account_nonce =>
    match c.encode call with
    | .error e => (.error e, [.encodeCall])
    | .ok ec =>
      let r := extrinsic_create_signed c.runtime_version c.genesis_hash
        account_nonce ec signer
      (.ok r.1, .encodeCall :: r.2)

/-- `OfflineClient::create_signed_encoded`: build the signed extrinsic,
SCALE-encode it, and render it as a `0x`-prefixed hex string. -/
def OfflineClient.create_signed_encoded (c : OfflineClient) (call : CallData)
    (signer : Signer) : Except Error String × List Event :=
  match c.create_signed call signer with
  | (.error e, evs) => (.error e, evs)
  | (.ok ext, evs) => (.ok ("0x" ++ hexEncode (encodeExtrinsic ext)), evs)

/-! ## State-passing views of the `&self` methods

Each method of `impl OfflineClient` borrows the client immutably; the
state-passing view returns the method's result together with the client
state after the call, making the frame property provable. -/

/-- `OfflineClient::genesis` with explicit state passing. -/
def OfflineClient.genesisOp (c : OfflineClient) : List Nat × OfflineClient :=
  (c.genesis_hash, c)

/-- `OfflineClient::metadata` with explicit state passing. -/
def OfflineClient.metadataOp (c : OfflineClient) : Schema × OfflineClient :=
  (c.metadata, c)

/-- `OfflineClient::properties` with explicit state passing. -/
def OfflineClient.propertiesOp (c : OfflineClient) :
    SystemProperties × OfflineClient :=
  (c.properties, c)

/-- `OfflineClient::encode` with explicit state passing. -/
def OfflineClient.encodeOp (c : OfflineClient) (call : CallData) :
    Except Error (List Nat) × OfflineClient :=
  (c.encode call, c)

/-- `OfflineClient::create_unsigned` with explicit state passing. -/
def OfflineClient.create_unsignedOp (c : OfflineClient) (call : CallData) :
    Except Error UncheckedExtrinsic × OfflineClient :=
  (c.create_unsigned call, c)

/-- `OfflineClient::create_signed` with explicit state passing. -/
def OfflineClient.create_signedOp (c : OfflineClient) (call : CallData)
    (signer : Signer) :
    (Except Error UncheckedExtrinsic × List Event) × OfflineClient :=
  (c.create_signed call signer, c)

/-- `OfflineClient::create_signed_encoded` with explicit state passing. -/
def OfflineClient.create_signed_encodedOp (c : OfflineClient)
    (call : CallData) (signer : Signer) :
    (Except Error String × List Event) × OfflineClient :=
  (c.create_signed_encoded call signer, c)

/-- `OfflineClient::clone` with explicit state passing (clone borrows the
original immutably and returns the copy). -/
def OfflineClient.cloneOp (c : OfflineClient) :
    OfflineClient × OfflineClient :=
  (c.clone, c)

/-! ## Hex lemmas -/

/-- Characters are determined by their code points. -/
theorem char_toNat_inj {a b : Char} (h : a.toNat = b.toNat) : a = b :=
  Char.ext (UInt32.ext h)

/-- Code point of the lowercase hex digit character for each value below
16. -/
theorem hexDigitChar_toNat :
    ∀ v < 16, (hexDigitChar v).toNat = if v < 10 then 48 + v else 87 + v := by
  decide

/-- The lowercase hex digit characters are lowercase hex characters. -/
theorem isLowerHexChar_hexDigitChar :
    ∀ v < 16, isLowerHexChar (hexDigitChar v) = true := by
  decide

/-- Hex digit values are below 16. -/
theorem hexDigitVal_lt (c : Char) (v : Nat) (h : hexDigitVal c = some v) :
    v < 16 := by
  simp only [hexDigitVal] at h
  split at h
  · injection h with hv; omega
  · split at h
    · injection h with hv; omega
    · split at h
      · injection h with hv; omega
      · exact absurd h (by simp)

/-- On a digit or lowercase hex letter, `hexDigitChar` inverts
`hexDigitVal`. -/
theorem hexDigitChar_hexDigitVal (c : Char) (v : Nat)
    (hl : isLowerHexChar c = true) (h : hexDigitVal c = some v) :
    hexDigitChar v = c := by
  have hl2 : (48 ≤ c.toNat ∧ c.toNat ≤ 57) ∨ (97 ≤ c.toNat ∧ c.toNat ≤ 102) := by
    simpa [isLowerHexChar, Bool.or_eq_true, Bool.and_eq_true,
      decide_eq_true_eq] using hl
  apply char_toNat_inj
  simp only [hexDigitVal] at h
  split at h
  · injection h with hv
    rw [hexDigitChar_toNat v (by omega)]
    split <;> omega
  · split at h
    · injection h with hv
      rw [hexDigitChar_toNat v (by omega)]
      split <;> omega
    · split at h
      · injection h with hv
        rw [hexDigitChar_toNat v (by omega)]
        split <;> omega
      · exact absurd h (by simp)

/-- Every character of a `hexEncode` rendering is a digit or lowercase hex
letter. -/
theorem hexEncode_all_lower (bs : List Nat) :
    ∀ ch ∈ (hexEncode bs).data, isLowerHexChar ch = true := by
  intro ch hch
  have hdata : (hexEncode bs).data = (bs.map hexEncodeByte).flatten := rfl
  rw [hdata] at hch
  rw [List.mem_flatten] at hch
  obtain ⟨l, hl, hcl⟩ := hch
  rw [List.mem_map] at hl
  obtain ⟨b, _, rfl⟩ := hl
  simp only [hexEncodeByte, List.mem_cons, List.not_mem_nil] at hcl
  rcases hcl with rfl | rfl | h
  · exact isLowerHexChar_hexDigitChar _ (Nat.mod_lt _ (by omega))
  · exact isLowerHexChar_hexDigitChar _ (Nat.mod_lt _ (by omega))
  · exact absurd h (by simp)

/-- Decoding a hex string of digits and lowercase letters and re-encoding
it reproduces the original character list. -/
theorem hexDecode_hexEncode : ∀ (rest : List Char) (bs : List Nat),
    hexDecodeList rest = some bs → rest.all isLowerHexChar = true →
    (bs.map hexEncodeByte).flatten = rest
  | [], bs, h, _ => by
    simp only [hexDecodeList, Option.some.injEq] at h
    subst h
    rfl
  | [c], bs, h, _ => by
    simp [hexDecodeList] at h
  | c1 :: c2 :: rest, bs, h, hl => by
    simp only [List.all_cons, Bool.and_eq_true] at hl
    obtain ⟨hl1, hl2, hl3⟩ := hl
    simp only [hexDecodeList] at h
    cases hv1 : hexDigitVal c1 with
    | none => rw [hv1] at h; simp at h
    | some a =>
      cases hv2 : hexDigitVal c2 with
      | none => rw [hv1, hv2] at h; simp at h
      | some b =>
        cases hv3 : hexDecodeList rest with
        | none => rw [hv1, hv2, hv3] at h; simp at h
        | some bs0 =>
          rw [hv1, hv2, hv3] at h
          simp only [Option.some.injEq] at h
          subst h
          have ha : a < 16 := hexDigitVal_lt c1 a hv1
          have hb : b < 16 := hexDigitVal_lt c2 b hv2
          have ih := hexDecode_hexEncode rest bs0 hv3 hl3
          simp only [List.map_cons, List.flatten_cons, hexEncodeByte]
          have e1 : (a * 16 + b) / 16 % 16 = a := by omega
          have e2 : (a * 16 + b) % 16 = b := by omega
          rw [e1, e2, hexDigitChar_hexDigitVal c1 a hl1 hv1,
            hexDigitChar_hexDigitVal c2 b hl2 hv2, ih]
          rfl

/-! ## Concrete fixtures (the `offline_balance_transfer` example scenario) -/

/-- The `transfer` call entry at call index 0. -/
def transferEntry : CallEntry := { name := "transfer", index := 0 }

/-- The `Balances` module at module index 4 with its `transfer` call. -/
def balancesModule : ModuleEntry :=
  { name := "Balances", index := 4, calls := [transferEntry] }

/-- A schema containing `Balances.transfer` at `(4, 0)`. -/
def demoSchema : Schema := [balancesModule]

/-- A fixed runtime version. -/
def demoRV : RuntimeVersion :=
  { specName := "polkadot", implName := "parity-polkadot", specVersion := 30
    implVersion := 0, transactionVersion := 7 }

/-- The dev-chain system properties hard-coded in the example. -/
def demoProps : SystemProperties :=
  { ss58Format := 42, tokenDecimals := 12, tokenSymbol := "UNIT" }

/-- A genesis id of 32 zero bytes. -/
def demoGenesis : List Nat := List.replicate 32 0

/-- A built offline client over the demo schema and chain identity. -/
def demoClient : OfflineClient :=
  { genesis_hash := demoGenesis, metadata := demoSchema
    properties := demoProps, runtime_version := demoRV }

/-- A fixed 32-byte destination account id. -/
def demoAccount : List Nat := List.replicate 32 7

/-- The example call: `Balances.transfer` of amount 12345 to the fixed
account. -/
def demoCall : CallData :=
  { module := "Balances", function := "transfer"
    args := [.raw demoAccount, .compact 12345] }

/-- A deterministic signer with nonce 0 (the signing function is an
arbitrary fixed function of the payload). -/
def demoSigner : Signer :=
  { account_id := List.replicate 32 1, nonce := some 0
    sign := fun payload => payload.take 64 }

/-- A signer whose nonce was never set. -/
def noNonceSigner : Signer :=
  { account_id := List.replicate 32 1, nonce := none
    sign := fun payload => payload.take 64 }

/-- The expected encoding of the demo call: `[4, 0]` then the arguments in
declared order. -/
def demoEncodedCall : List Nat := 4 :: 0 :: (demoAccount ++ encodeCompact 12345)

/-- The demo signed-extra bytes (nonce 0, immortal era, tip 0). -/
def demoExtra : List Nat := signedExtraBytes 0 0

/-- The demo additional-signed bytes. -/
def demoAdditional : List Nat := additionalSignedBytes demoRV demoGenesis

/-- The demo signed payload. -/
def demoPayload : List Nat := signedPayload demoEncodedCall demoExtra demoAdditional

/-- The signed extrinsic the demo scenario produces. -/
def demoExt : UncheckedExtrinsic :=
  { sig := some { accountId := demoSigner.account_id
                  signature := demoSigner.sign demoPayload
                  signedExtra := demoExtra }
    call := demoEncodedCall }

/-- A call whose module is absent from the demo schema. -/
def missingModuleCall : CallData :=
  { module := "Staking", function := "bond", args := [] }

/-! ## Claim theorems -/

/-- Claim C1: for every chain identity (client), call and signer, when the
signer has a nonce and the call encodes, the event trace of `create_signed`
contains exactly one signing invocation, and its payload is exactly the
encoded call, then the encoded signed-extra fields (nonce, era, tip), then
the encoded additional-signed fields (spec version, transaction version,
genesis id) — nothing else is signed. -/
theorem create_signed_signs_exact_payload (c : OfflineClient)
    (call : CallData) (signer : Signer) (n : Nat) (ec : List Nat)
    (hn : signer.nonce = some n) (he : c.encode call = .ok ec) :
    (c.create_signed call signer).2 =
      [.encodeCall,
       .sign (ec ++ signedExtraBytes n 0 ++
         additionalSignedBytes c.runtime_version c.genesis_hash)] := by
  simp [OfflineClient.create_signed, hn, he, extrinsic_create_signed,
    signedPayload, List.append_assoc]

/-- Witness for C1 at the demo scenario. -/
theorem create_signed_signs_exact_payload_witness :
    (demoClient.create_signed demoCall demoSigner).2 =
      [.encodeCall,
       .sign (demoEncodedCall ++ signedExtraBytes 0 0 ++
         additionalSignedBytes demoClient.runtime_version
           demoClient.genesis_hash)] :=
  create_signed_signs_exact_payload demoClient demoCall demoSigner 0
    demoEncodedCall rfl rfl

/-- Claim C2: for every client, call, and signer whose nonce is absent,
`create_signed` fails with the missing-nonce error and the event trace is
empty: no call encoding is performed and the Signing Adapter observes zero
sign calls. -/
theorem create_signed_missing_nonce (c : OfflineClient) (call : CallData)
    (signer : Signer) (h : signer.nonce = none) :
    c.create_signed call signer = (.error .missingNonce, []) := by
  simp [OfflineClient.create_signed, h]

/-- Witness for C2 with a nonce-less signer. -/
theorem create_signed_missing_nonce_witness :
    demoClient.create_signed demoCall noNonceSigner =
      (.error .missingNonce, []) :=
  create_signed_missing_nonce demoClient demoCall noNonceSigner rfl

/-- Claim C3: for every schema in which the requested module resolves to a
module entry and the requested call resolves to a call entry, `encode`
returns the module index byte, then the call index byte, then each argument
serialized in declared order. -/
theorem encode_index_prefix (c : OfflineClient) (call : CallData)
    (m : ModuleEntry) (ce : CallEntry)
    (hm : module_with_calls c.metadata call.module = .ok m)
    (hc : m.calls.find? (fun e => e.name == call.function) = some ce) :
    c.encode call =
      .ok (m.index :: ce.index :: (call.args.map encodeArg).flatten) := by
  simp [OfflineClient.encode, hm, moduleCall, hc]

/-- Witness for C3: `Balances.transfer` at `(4, 0)` begins with bytes 4, 0
followed by the arguments in declared order. -/
theorem encode_index_prefix_witness :
    demoClient.encode demoCall =
      .ok (4 :: 0 :: (demoCall.args.map encodeArg).flatten) :=
  encode_index_prefix demoClient demoCall balancesModule transferEntry rfl rfl

/-- Claim C5 counterexample: `create_unsigned` does not always succeed — on
a call whose module is absent from the schema it returns the
unknown-module error. -/
theorem create_unsigned_not_total :
    demoClient.create_unsigned missingModuleCall =
      .error (.unknownModule "Staking") := rfl

/-- Claim C5 (amended): for every call that resolves in the client's
schema, `create_unsigned` succeeds, returning an extrinsic that wraps the
encoded call with no signature section; the underlying assembler
`extrinsic::create_unsigned` itself always succeeds on any encoded call. -/
theorem create_unsigned_wraps_encoded (c : OfflineClient) (call : CallData)
    (ec : List Nat) (h : c.encode call = .ok ec) :
    c.create_unsigned call = .ok { sig := none, call := ec } ∧
    ∀ bs : List Nat, extrinsic_create_unsigned bs = { sig := none, call := bs } := by
  exact ⟨by simp [OfflineClient.create_unsigned, h, extrinsic_create_unsigned],
    fun bs => rfl⟩

/-- Witness for the amended C5 at the demo scenario. -/
theorem create_unsigned_wraps_encoded_witness :
    demoClient.create_unsigned demoCall = .ok { sig := none, call := demoEncodedCall } ∧
    ∀ bs : List Nat, extrinsic_create_unsigned bs = { sig := none, call := bs } :=
  create_unsigned_wraps_encoded demoClient demoCall demoEncodedCall rfl

/-- Claim C6: with identical client (genesis id, runtime version, schema),
call, and deterministic signer inputs, two invocations of
`create_signed_encoded` produce byte-identical output. -/
theorem create_signed_encoded_deterministic (c1 c2 : OfflineClient)
    (k1 k2 : CallData) (s1 s2 : Signer)
    (hc : c1 = c2) (hk : k1 = k2) (hs : s1 = s2) :
    c1.create_signed_encoded k1 s1 = c2.create_signed_encoded k2 s2 := by
  rw [hc, hk, hs]

/-- Witness for C6 at the demo scenario. -/
theorem create_signed_encoded_deterministic_witness :
    demoClient.create_signed_encoded demoCall demoSigner =
      demoClient.create_signed_encoded demoCall demoSigner :=
  create_signed_encoded_deterministic demoClient demoClient demoCall demoCall
    demoSigner demoSigner rfl rfl rfl

/-- Claim C9: `rpc_to_struct` requires only a string `jsonrpc` field and a
deserializable `result` field: it succeeds and returns exactly the parsed
`result`, with no `id` field required and any extra fields ignored. -/
theorem rpc_to_struct_ignores_id {α : Type} (pT : Json → Option α)
    (fields : List (String × Json)) (jr : String) (v : Json) (t : α)
    (hj : fields.lookup "jsonrpc" = some (.str jr))
    (hr : fields.lookup "result" = some v)
    (ht : pT v = some t) :
    rpc_to_struct pT (.obj fields) = .ok t := by
  simp [rpc_to_struct, parseRpcRes, hj, hr, ht]

/-- A document with no `id` field and an unrelated extra field. -/
def noIdDoc : List (String × Json) :=
  [("result", .str "chain data"), ("jsonrpc", .str "2.0"),
   ("extraField", .num 5)]

/-- Witness for C9 on a document lacking `id` and carrying an extra
field. -/
theorem rpc_to_struct_ignores_id_witness :
    rpc_to_struct parseString (.obj noIdDoc) = .ok "chain data" :=
  rpc_to_struct_ignores_id parseString noIdDoc "2.0" (.str "chain data")
    "chain data" rfl rfl rfl

/-- Claim C10: every operation on a built client leaves the client's four
stored fields unchanged (the state-passing views return the client
unmodified), and a clone equals the original in all four stored fields. -/
theorem client_state_readonly (c : OfflineClient) (call : CallData)
    (signer : Signer) :
    c.genesisOp.2 = c ∧ c.metadataOp.2 = c ∧ c.propertiesOp.2 = c ∧
    (c.encodeOp call).2 = c ∧ (c.create_unsignedOp call).2 = c ∧
    (c.create_signedOp call signer).2 = c ∧
    (c.create_signed_encodedOp call signer).2 = c ∧
    c.cloneOp.2 = c ∧ c.clone = c :=
  ⟨rfl, rfl, rfl, rfl, rfl, rfl, rfl, rfl, rfl⟩

/-- Claim C4: whenever `create_signed` succeeds, `create_signed_encoded`
succeeds and returns exactly `0x` followed by the lowercase hex rendering
of the codec encoding (with its length prefix) of the signed extrinsic;
every character after the prefix is a digit or lowercase hex letter. -/
theorem create_signed_encoded_hex (c : OfflineClient) (call : CallData)
    (signer : Signer) (ext : UncheckedExtrinsic) (evs : List Event)
    (h : c.create_signed call signer = (.ok ext, evs)) :
    c.create_signed_encoded call signer =
      (.ok ("0x" ++ hexEncode (encodeExtrinsic ext)), evs) ∧
    ∀ ch ∈ (hexEncode (encodeExtrinsic ext)).data, isLowerHexChar ch = true :=
  ⟨by simp [OfflineClient.create_signed_encoded, h],
   hexEncode_all_lower (encodeExtrinsic ext)⟩

/-- Witness for C4 at the demo scenario. -/
theorem create_signed_encoded_hex_witness :
    demoClient.create_signed_encoded demoCall demoSigner =
      (.ok ("0x" ++ hexEncode (encodeExtrinsic demoExt)),
        [.encodeCall, .sign demoPayload]) ∧
    ∀ ch ∈ (hexEncode (encodeExtrinsic demoExt)).data,
      isLowerHexChar ch = true :=
  create_signed_encoded_hex demoClient demoCall demoSigner demoExt
    [.encodeCall, .sign demoPayload] rfl

/-- A well-formed RPC document whose hex `result` uses uppercase digits. -/
def upperHexDoc : Json :=
  .obj [("jsonrpc", .str "2.0"), ("result", .str "0xFF"), ("id", .num 1)]

/-- Claim C7 counterexample: on a valid document whose `0x`-prefixed hex
`result` uses uppercase digits, `rpc_to_bytes` still returns the decoded
bytes, but re-encoding them as `0x` plus lowercase hex does not reproduce
the original `result` string, so the round-trip stated by the claim
fails. -/
theorem rpc_to_bytes_uppercase_breaks_roundtrip :
    rpc_to_bytes upperHexDoc = .ok [255] ∧
    "0x" ++ hexEncode [255] ≠ "0xFF" := by
  exact ⟨rfl, by decide⟩

/-- Claim C7 (amended): for every document that parses to an `RpcRes`
whose `result` begins with the characters `0` `x`, `rpc_to_bytes` returns
exactly the bytes obtained by hex-decoding the remainder, and when that
remainder is lowercase hex, re-encoding the bytes as `0x` plus lowercase
hex reproduces the original `result` string; if the remainder is not valid
hex, it fails with the hex-decoding error. -/
theorem rpc_to_bytes_decodes_rest (doc : Json) (r : RpcRes String)
    (rest : List Char)
    (hp : parseRpcRes parseString doc = some r)
    (hd : r.result.data = '0' :: 'x' :: rest) :
    (∀ bs, hexDecodeList rest = some bs →
        rpc_to_bytes doc = .ok bs ∧
        (rest.all isLowerHexChar = true → "0x" ++ hexEncode bs = r.result)) ∧
    (hexDecodeList rest = none → rpc_to_bytes doc = .err .malformedHex) := by
  constructor
  · intro bs hbs
    constructor
    · simp [rpc_to_bytes, hp, hd, hbs]
    · intro hlow
      apply String.ext
      have h1 : ("0x" ++ hexEncode bs).data = '0' :: 'x' :: (hexEncode bs).data := rfl
      have h2 : (hexEncode bs).data = (bs.map hexEncodeByte).flatten := rfl
      rw [h1, h2, hexDecode_hexEncode rest bs hbs hlow, hd]
  · intro hbs
    simp [rpc_to_bytes, hp, hd, hbs]

/-- Witness for the amended C7 on a lowercase document. -/
theorem rpc_to_bytes_decodes_rest_witness :
    rpc_to_bytes (.obj [("jsonrpc", .str "2.0"), ("result", .str "0xff"),
        ("id", .num 1)]) = .ok [255] ∧
    ((("0xff" : String).data.drop 2).all isLowerHexChar) = true := by
  constructor
  · exact ((rpc_to_bytes_decodes_rest
      (.obj [("jsonrpc", .str "2.0"), ("result", .str "0xff"), ("id", .num 1)])
      { jsonrpc := "2.0", result := "0xff" } ['f', 'f'] rfl rfl).1
      [255] rfl).1
  · decide

/-- A well-formed RPC document whose `result` is a single character. -/
def shortResultDoc : Json :=
  .obj [("jsonrpc", .str "2.0"), ("result", .str "0"), ("id", .num 1)]

/-- A well-formed RPC document whose `result` does not start with `0x` but
whose remainder after two characters is valid hex. -/
def oddPrefixDoc : Json :=
  .obj [("jsonrpc", .str "2.0"), ("result", .str "zzff"), ("id", .num 1)]

/-- Claim C8: `rpc_to_bytes` slices off the first two characters of
`result` unconditionally: on a well-formed envelope whose `result` is
shorter than two characters it panics rather than returning an error, and
on a `result` whose first two characters are not `0x` but whose remainder
is valid hex it returns the decoded remainder rather than failing. -/
theorem rpc_to_bytes_unchecked_slice (doc : Json) (r : RpcRes String)
    (hp : parseRpcRes parseString doc = some r) :
    (r.result.data.length < 2 → rpc_to_bytes doc = .panic) ∧
    (∀ c1 c2 rest bs, r.result.data = c1 :: c2 :: rest →
        ¬(c1 = '0' ∧ c2 = 'x') → hexDecodeList rest = some bs →
        rpc_to_bytes doc = .ok bs) := by
  constructor
  · intro hlen
    match hd : r.result.data with
    | [] => simp [rpc_to_bytes, hp, hd]
    | [c] => simp [rpc_to_bytes, hp, hd]
    | c1 :: c2 :: rest =>
      rw [hd] at hlen
      simp only [List.length_cons] at hlen
      omega
  · intro c1 c2 rest bs hd _ hbs
    simp [rpc_to_bytes, hp, hd, hbs]

/-- Witness for C8: the panic on a one-character `result` and the
successful decode behind a non-`0x` prefix. -/
theorem rpc_to_bytes_unchecked_slice_witness :
    rpc_to_bytes shortResultDoc = .panic ∧
    rpc_to_bytes oddPrefixDoc = .ok [255] := by
  constructor
  · exact (rpc_to_bytes_unchecked_slice shortResultDoc
      { jsonrpc := "2.0", result := "0" } rfl).1 (by decide)
  · exact (rpc_to_bytes_unchecked_slice oddPrefixDoc
      { jsonrpc := "2.0", result := "zzff" } rfl).2 'z' 'z' ['f', 'f'] [255]
      rfl (by decide) rfl

end OfflineSubxt
